import Mathlib

/-!
# Verification of the binary decoders in `grpc-geyser-tutorial`

This development gives a shallow embedding, in Lean 4, of the byte-level
decoding code of the repository:

* `main.py` — `decode_create_instruction` with its helpers `read_string`,
  `read_pubkey` and `get_account_key`;
* `learning-examples/meteora_dlmm_monitor.py` — the fixed-layout account
  parser `parse_meteora_dlmm_account_data` (with `parse_static_parameters`,
  `parse_variable_parameters`, `parse_protocol_fee`) and the price
  functions `calculate_dlmm_price_actual` / `calculate_precise_price_decimal`;
* `learning-examples/accounts_advanced_filter.py` — `calculate_discriminator`
  (SHA-256 based Anchor account discriminator).

Modelling conventions:

* A Python `bytes` value is a `List Nat` whose entries are the byte values.
  Python slicing `data[a:b]` is `(data.drop a).take (b - a)`; it never fails
  and silently truncates at the end of the buffer, exactly as in Python.
* `struct.unpack` / `struct.unpack_from` raise `struct.error` when the
  available bytes are fewer than the format width; this is modelled by an
  explicit bounds test.  Multi-byte integers are little-endian.
* A Python `str` produced by `bytes.decode()` is represented by its UTF-8
  byte sequence (the two are in bijection); `bytes.decode()` raises
  `UnicodeDecodeError` exactly on byte sequences that are not valid UTF-8,
  modelled by the executable validator `isValidUtf8`.
* Python exceptions escaping a function are the `Except.error` values of an
  inductive `PyErr`; a function wrapped in a catch-all `try/except` that
  returns `None` on any failure is modelled with `Option`, every failure
  collapsing to `none` as in the source.
* The floating-point price computation is idealised over the real numbers:
  a Python `float` result is `PriceF.val x` with `x : ℝ`, and `float("inf")`
  is `PriceF.inf`.  Rounding is idealised as exact, but the float range
  limits of the direct path are modelled explicitly: the power raises
  `OverflowError` (caught by the source, which falls through to the
  log-domain path) once it reaches `floatOverflowBound`, and the quotient
  reads back as `0.0` at or below `floatUnderflowBound`; the explicit
  log-domain clamps of the source are kept.
-/

/-! ## Byte-level utilities -/

/-- Value of a byte sequence read as a little-endian unsigned integer,
least-significant byte first — the reading performed by Python's
`struct.unpack` with formats `<H`, `<I`, `<Q` and by
`int.from_bytes(_, "little")`. -/
def leVal (l : List Nat) : Nat := l.foldr (fun b acc => b + 256 * acc) 0

/-- Interpret an unsigned `w`-byte value as a two's-complement signed
integer (Python `struct` formats `<i`, `<q`). -/
def toSigned (w : Nat) (n : Nat) : Int :=
  if n < 2 ^ (8 * w - 1) then (n : Int) else (n : Int) - 2 ^ (8 * w)

/-- A UTF-8 continuation byte, `0x80 ≤ b ≤ 0xBF`. -/
def isCont (b : Nat) : Bool := 0x80 ≤ b && b ≤ 0xBF

/-- Strict UTF-8 validity of a byte sequence, as enforced by Python's
`bytes.decode()` (default `utf-8` codec, `strict` errors): rejects
continuation-byte errors, overlong forms, surrogates (`ED A0..BF`), and
code points above `U+10FFFF` (`F4 90..`). -/
def isValidUtf8 : List Nat → Bool
  | [] => true
  | b :: rest =>
    if b ≤ 0x7F then isValidUtf8 rest
    else if 0xC2 ≤ b && b ≤ 0xDF then
      match rest with
      | c1 :: r => isCont c1 && isValidUtf8 r
      | [] => false
    else if b = 0xE0 then
      match rest with
      | c1 :: c2 :: r => (0xA0 ≤ c1 && c1 ≤ 0xBF) && isCont c2 && isValidUtf8 r
      | _ => false
    else if 0xE1 ≤ b && b ≤ 0xEC then
      match rest with
      | c1 :: c2 :: r => isCont c1 && isCont c2 && isValidUtf8 r
      | _ => false
    else if b = 0xED then
      match rest with
      | c1 :: c2 :: r => (0x80 ≤ c1 && c1 ≤ 0x9F) && isCont c2 && isValidUtf8 r
      | _ => false
    else if 0xEE ≤ b && b ≤ 0xEF then
      match rest with
      | c1 :: c2 :: r => isCont c1 && isCont c2 && isValidUtf8 r
      | _ => false
    else if b = 0xF0 then
      match rest with
      | c1 :: c2 :: c3 :: r =>
        (0x90 ≤ c1 && c1 ≤ 0xBF) && isCont c2 && isCont c3 && isValidUtf8 r
      | _ => false
    else if 0xF1 ≤ b && b ≤ 0xF3 then
      match rest with
      | c1 :: c2 :: c3 :: r => isCont c1 && isCont c2 && isCont c3 && isValidUtf8 r
      | _ => false
    else if b = 0xF4 then
      match rest with
      | c1 :: c2 :: c3 :: r =>
        (0x80 ≤ c1 && c1 ≤ 0x8F) && isCont c2 && isCont c3 && isValidUtf8 r
      | _ => false
    else false

/-! ## Base-58 encoding (the `base58.b58encode(..).decode()` calls) -/

/-- The Bitcoin base-58 alphabet used by the `base58` package
(digits and letters, excluding `0`, `I`, `O`, `l`). -/
def b58Alphabet : List Char :=
  ['1', '2', '3', '4', '5', '6', '7', '8', '9',
   'A', 'B', 'C', 'D', 'E', 'F', 'G', 'H', 'J', 'K', 'L', 'M', 'N',
   'P', 'Q', 'R', 'S', 'T', 'U', 'V', 'W', 'X', 'Y', 'Z',
   'a', 'b', 'c', 'd', 'e', 'f', 'g', 'h', 'i', 'j', 'k', 'm', 'n',
   'o', 'p', 'q', 'r', 's', 't', 'u', 'v', 'w', 'x', 'y', 'z']

/-- Fuel-driven base-58 digit expansion (most significant digit first);
the fuel only has to dominate the number of digits, and `b58Digits` below
supplies `n` itself, which always suffices. -/
def b58DigitsAux (fuel : Nat) (n : Nat) : List Nat :=
  match fuel with
  | 0 => []
  | fuel + 1 => if n = 0 then [] else b58DigitsAux fuel (n / 58) ++ [n % 58]

/-- Base-58 digit expansion of a natural number, most significant digit
first; `0` has the empty expansion. -/
def b58Digits (n : Nat) : List Nat := b58DigitsAux n n

/-- Value of a byte sequence read as a big-endian unsigned integer. -/
def beVal (l : List Nat) : Nat := l.foldl (fun acc b => acc * 256 + b) 0

/-- Number of leading zero bytes of a byte sequence. -/
def countLeadingZeroBytes : List Nat → Nat
  | [] => 0
  | b :: t => if b = 0 then countLeadingZeroBytes t + 1 else 0

/-- `base58.b58encode` followed by `.decode()`: one `'1'` per leading zero
byte, then the base-58 digits of the big-endian value of the input. -/
def b58encode (bs : List Nat) : List Char :=
  List.replicate (countLeadingZeroBytes bs) '1' ++
    (b58Digits (beVal bs)).map (fun d => b58Alphabet.getD d ' ')

/-! ## `main.py`: the create-instruction decoder -/

/-- A Python exception escaping a decode function: `struct.error` from
`struct.unpack_from`, `UnicodeDecodeError` from `bytes.decode()`, or
`IndexError` from list indexing. -/
inductive PyErr where
  | structError
  | unicodeDecodeError
  | indexError
deriving DecidableEq, Repr

deriving instance DecidableEq for Except

/-- The dict returned by `decode_create_instruction`.  `name`, `symbol`,
`uri` are Python strings represented by their UTF-8 bytes; the address
fields are the base-58 strings the source builds (or the `"N/A"`
sentinel). -/
structure CreateTokenInfo where
  name : List Nat
  symbol : List Nat
  uri : List Nat
  creator : List Char
  mint : List Char
  bonding_curve : List Char
  associated_bonding_curve : List Char
  user : List Char
deriving DecidableEq, Repr

/-- The `"N/A"` sentinel returned by `get_account_key` for an absent
account-index position. -/
def naString : List Char := ['N', '/', 'A']

/-- `read_string` of `main.py`: reads a 4-byte little-endian length at
`offset` (raising `struct.error` if fewer than 4 bytes remain), then takes
`length` bytes of string body — Python slicing, so a short body silently
truncates — and UTF-8-decodes them.  Returns the string and the advanced
offset. -/
def read_string (ix_data : List Nat) (offset : Nat) : Except PyErr (List Nat × Nat) :=
  if ix_data.length < offset + 4 then .error .structError
  else
    let length := leVal ((ix_data.drop offset).take 4)
    let value := (ix_data.drop (offset + 4)).take length
    if isValidUtf8 value then .ok (value, offset + 4 + length)
    else .error .unicodeDecodeError

/-- `read_pubkey` of `main.py`: base-58-encodes the 32-byte slice at
`offset` (silently shorter if the buffer ends first, as Python slicing is
total) and advances the offset by 32. -/
def read_pubkey (ix_data : List Nat) (offset : Nat) : List Char × Nat :=
  (b58encode ((ix_data.drop offset).take 32), offset + 32)

/-- `get_account_key` of `main.py`: returns `"N/A"` when `index` is not a
position of the instruction's account-index list; otherwise resolves
`accounts[index]` through the transaction key table — an out-of-range
resolved index raises `IndexError`, the position bound being the only
check performed. -/
def get_account_key (keys : List (List Nat)) (accounts : List Nat) (index : Nat) :
    Except PyErr (List Char) :=
  if accounts.length ≤ index then .ok naString
  else
    match keys.get? (accounts.getD index 0) with
    | some key => .ok (b58encode key)
    | none => .error .indexError

/-- The sequential body of `decode_create_instruction`: starting at offset
8 (skipping the 8-byte discriminator), three length-prefixed strings and
one 32-byte public key, threading the mutable `offset` of the source
explicitly.  Returns the four values and the final offset. -/
def decode_create_fields (ix_data : List Nat) :
    Except PyErr ((List Nat × List Nat × List Nat × List Char) × Nat) := do
  let (name, o1) ← read_string ix_data 8
  let (symbol, o2) ← read_string ix_data o1
  let (uri, o3) ← read_string ix_data o2
  let (creator, o4) := read_pubkey ix_data o3
  return ((name, symbol, uri, creator), o4)

/-- `decode_create_instruction` of `main.py`: the sequential field reads,
then the four account-key resolutions at positions 0, 2, 3, 7. -/
def decode_create_instruction (ix_data : List Nat) (keys : List (List Nat))
    (accounts : List Nat) : Except PyErr CreateTokenInfo := do
  let ((name, symbol, uri, creator), _) ← decode_create_fields ix_data
  let mint ← get_account_key keys accounts 0
  let bonding_curve ← get_account_key keys accounts 2
  let associated_bonding_curve ← get_account_key keys accounts 3
  let user ← get_account_key keys accounts 7
  return { name := name, symbol := symbol, uri := uri, creator := creator,
           mint := mint, bonding_curve := bonding_curve,
           associated_bonding_curve := associated_bonding_curve, user := user }

/-! ## `meteora_dlmm_monitor.py`: the fixed-layout account parser -/

/-- `struct.unpack` of one little-endian unsigned field of `width` bytes
from the slice `data[offset : offset + width]`; `none` models the
`struct.error` raised when fewer than `width` bytes remain (the enclosing
parser catches every exception and returns `None`). -/
def unpackU (data : List Nat) (offset width : Nat) : Option Nat :=
  if offset + width ≤ data.length then some (leVal ((data.drop offset).take width))
  else none

/-- `struct.unpack` of one little-endian signed field (`<i`, `<q`). -/
def unpackI (data : List Nat) (offset width : Nat) : Option Int :=
  (unpackU data offset width).map (toSigned width)

/-- The `StaticParameters` group of the DLMM account layout. -/
structure StaticParameters where
  base_factor : Nat
  filter_period : Nat
  decay_period : Nat
  reduction_factor : Nat
  variable_fee_control : Nat
  max_volatility_accumulator : Nat
  min_bin_id : Int
  max_bin_id : Int
  protocol_share : Nat
  base_fee_power_factor : Nat
deriving DecidableEq, Repr

/-- The `VariableParameters` group of the DLMM account layout. -/
structure VariableParameters where
  volatility_accumulator : Nat
  volatility_reference : Nat
  index_reference : Int
  last_update_timestamp : Int
deriving DecidableEq, Repr

/-- The optional trailing `ProtocolFee` group. -/
structure ProtocolFee where
  amount_x : Nat
  amount_y : Nat
deriving DecidableEq, Repr

/-- The dict built by `parse_meteora_dlmm_account_data`; the four mint and
reserve addresses are the base-58 strings the source builds, and
`protocol_fee` is `none` when the optional trailing group is absent from
the dict. -/
structure PoolData where
  static_parameters : StaticParameters
  variable_parameters : VariableParameters
  bump_seed : Nat
  bin_step_seed : Nat
  pair_type : Nat
  active_id : Int
  bin_step : Nat
  status : Nat
  require_base_factor_seed : Nat
  base_factor_seed : Nat
  activation_type : Nat
  creator_pool_on_off_control : Nat
  token_x_mint : List Char
  token_y_mint : List Char
  reserve_x : List Char
  reserve_y : List Char
  protocol_fee : Option ProtocolFee
deriving DecidableEq, Repr

/-- `parse_static_parameters`: ten little-endian fields
(`2+2+2+2+4+4+4+4+2+1` bytes, `min_bin_id`/`max_bin_id` signed) followed
by a 5-byte reserved gap; returns the group and the advanced offset. -/
def parse_static_parameters (data : List Nat) (offset : Nat) :
    Option (StaticParameters × Nat) := do
  let base_factor ← unpackU data offset 2
  let offset := offset + 2
  let filter_period ← unpackU data offset 2
  let offset := offset + 2
  let decay_period ← unpackU data offset 2
  let offset := offset + 2
  let reduction_factor ← unpackU data offset 2
  let offset := offset + 2
  let variable_fee_control ← unpackU data offset 4
  let offset := offset + 4
  let max_volatility_accumulator ← unpackU data offset 4
  let offset := offset + 4
  let min_bin_id ← unpackI data offset 4
  let offset := offset + 4
  let max_bin_id ← unpackI data offset 4
  let offset := offset + 4
  let protocol_share ← unpackU data offset 2
  let offset := offset + 2
  let base_fee_power_factor ← unpackU data offset 1
  let offset := offset + 1
  let offset := offset + 5
  return ({ base_factor := base_factor, filter_period := filter_period,
            decay_period := decay_period, reduction_factor := reduction_factor,
            variable_fee_control := variable_fee_control,
            max_volatility_accumulator := max_volatility_accumulator,
            min_bin_id := min_bin_id, max_bin_id := max_bin_id,
            protocol_share := protocol_share,
            base_fee_power_factor := base_fee_power_factor }, offset)

/-- `parse_variable_parameters`: three 4-byte fields
(`index_reference` signed), a 4-byte reserved gap, a signed 8-byte
timestamp, and an 8-byte reserved gap. -/
def parse_variable_parameters (data : List Nat) (offset : Nat) :
    Option (VariableParameters × Nat) := do
  let volatility_accumulator ← unpackU data offset 4
  let offset := offset + 4
  let volatility_reference ← unpackU data offset 4
  let offset := offset + 4
  let index_reference ← unpackI data offset 4
  let offset := offset + 4
  let offset := offset + 4
  let last_update_timestamp ← unpackI data offset 8
  let offset := offset + 8
  let offset := offset + 8
  return ({ volatility_accumulator := volatility_accumulator,
            volatility_reference := volatility_reference,
            index_reference := index_reference,
            last_update_timestamp := last_update_timestamp }, offset)

/-- `parse_protocol_fee`: two 8-byte unsigned counters. -/
def parse_protocol_fee (data : List Nat) (offset : Nat) :
    Option (ProtocolFee × Nat) := do
  let amount_x ← unpackU data offset 8
  let offset := offset + 8
  let amount_y ← unpackU data offset 8
  let offset := offset + 8
  return ({ amount_x := amount_x, amount_y := amount_y }, offset)

/-- `parse_meteora_dlmm_account_data`: rejects buffers shorter than 500
bytes, skips the 8-byte discriminator, reads the `StaticParameters` and
`VariableParameters` groups, re-checks that 50 more bytes exist, reads the
top-level scalars and the four 32-byte addresses (Python slices, rendered
base-58 in place), and reads the trailing `ProtocolFee` group only when at
least 16 bytes remain.  The source's catch-all `except` turns every
internal failure into `None`, hence the `Option`. -/
def parse_meteora_dlmm_account_data (data : List Nat) : Option PoolData :=
  if data.length < 500 then none
  else do
    let offset := 8
    let (static_params, offset) ← parse_static_parameters data offset
    let (variable_params, offset) ← parse_variable_parameters data offset
    if data.length < offset + 50 then none
    else do
      let bump_seed ← unpackU data offset 1
      let offset := offset + 1
      let bin_step_seed ← unpackU data offset 2
      let offset := offset + 2
      let pair_type ← unpackU data offset 1
      let offset := offset + 1
      let active_id ← unpackI data offset 4
      let offset := offset + 4
      let bin_step ← unpackU data offset 2
      let offset := offset + 2
      let status ← unpackU data offset 1
      let offset := offset + 1
      let require_base_factor_seed ← unpackU data offset 1
      let offset := offset + 1
      let base_factor_seed ← unpackU data offset 2
      let offset := offset + 2
      let activation_type ← unpackU data offset 1
      let offset := offset + 1
      let creator_pool_on_off_control ← unpackU data offset 1
      let offset := offset + 1
      let token_x_mint := b58encode ((data.drop offset).take 32)
      let offset := offset + 32
      let token_y_mint := b58encode ((data.drop offset).take 32)
      let offset := offset + 32
      let reserve_x := b58encode ((data.drop offset).take 32)
      let offset := offset + 32
      let reserve_y := b58encode ((data.drop offset).take 32)
      let offset := offset + 32
      if offset + 16 ≤ data.length then do
        let (pf, _) ← parse_protocol_fee data offset
        return { static_parameters := static_params,
                 variable_parameters := variable_params,
                 bump_seed := bump_seed, bin_step_seed := bin_step_seed,
                 pair_type := pair_type, active_id := active_id,
                 bin_step := bin_step, status := status,
                 require_base_factor_seed := require_base_factor_seed,
                 base_factor_seed := base_factor_seed,
                 activation_type := activation_type,
                 creator_pool_on_off_control := creator_pool_on_off_control,
                 token_x_mint := token_x_mint, token_y_mint := token_y_mint,
                 reserve_x := reserve_x, reserve_y := reserve_y,
                 protocol_fee := some pf }
      else
        return { static_parameters := static_params,
                 variable_parameters := variable_params,
                 bump_seed := bump_seed, bin_step_seed := bin_step_seed,
                 pair_type := pair_type, active_id := active_id,
                 bin_step := bin_step, status := status,
                 require_base_factor_seed := require_base_factor_seed,
                 base_factor_seed := base_factor_seed,
                 activation_type := activation_type,
                 creator_pool_on_off_control := creator_pool_on_off_control,
                 token_x_mint := token_x_mint, token_y_mint := token_y_mint,
                 reserve_x := reserve_x, reserve_y := reserve_y,
                 protocol_fee := none }

/-! ## `meteora_dlmm_monitor.py`: the price computation -/

/-- A Python float result of the price computation, idealised over the
reals: `float("inf")` is `inf`, every finite float (including `0.0`) is
`val x`. -/
inductive PriceF where
  | inf
  | val (x : ℝ)

/-- `inf` above every finite value, finite values ordered as reals — the
order Python's `<` puts on `float` values including `float("inf")`. -/
def PriceF.toEReal : PriceF → EReal
  | .inf => ⊤
  | .val x => (x : EReal)

/-- The least positive real that IEEE-754 double rounding
(round-to-nearest-even) takes to `float("inf")`: `2 ^ 1024 - 2 ^ 970`,
the midpoint between the largest finite double and `2 ^ 1024`.  A float
power such as `base ** active_id` raises `OverflowError` exactly when its
true value reaches this bound. -/
noncomputable def floatOverflowBound : ℝ := 2 ^ (1024 : ℕ) - 2 ^ (970 : ℕ)

/-- The greatest positive real that IEEE-754 double rounding
(round-to-nearest-even) takes to `0.0`: half the smallest subnormal,
`2 ^ (-1075)`.  A positive float result at or below it reads back as
`0.0`, with no exception raised. -/
noncomputable def floatUnderflowBound : ℝ := ((2 : ℝ) ^ (1075 : ℕ))⁻¹

/-- `calculate_dlmm_price_actual` of `meteora_dlmm_monitor.py`, idealised
over ℝ except for the float range limits of the direct path, which are
modelled explicitly: early return `1.0` for `active_id = 0`; for
`|active_id| ≤ 500` the direct path `base ** active_id / 10 ** (9 - 6)`,
where the power raises `OverflowError` once it reaches
`floatOverflowBound` — caught by the source's `except OverflowError:
pass` and falling through to the log-domain path — and the quotient
reads back as `0.0` once it is at or below `floatUnderflowBound`
(underflow raises nothing, so the `0.0` is returned from the `try`);
otherwise the log-domain path with the source's clamps to `float("inf")`
above `700` and to `0.0` below `-700` (between those clamps `exp` stays
inside normal double range, so no further range behaviour arises there;
rounding itself is idealised as exact).  The enclosing `try/except` of
the source never fires: `bin_step ≥ 0` keeps the base at least `1`,
inside the domain of `math.log`. -/
noncomputable def calculate_dlmm_price_actual (active_id : ℤ) (bin_step : ℕ) : PriceF :=
  let base : ℝ := 1 + (bin_step : ℝ) / 10000
  if active_id = 0 then .val 1
  else if |active_id| ≤ 500 ∧ base ^ active_id < floatOverflowBound then
    if base ^ active_id / 10 ^ (9 - 6) ≤ floatUnderflowBound then .val 0
    else .val (base ^ active_id / 10 ^ (9 - 6))
  else
    let log_result : ℝ := (active_id : ℝ) * Real.log base
    if 700 < log_result then .inf
    else if log_result < -700 then .val 0
    else .val (Real.exp log_result)

/-- Result of `calculate_precise_price_decimal`: the strings `"inf"` and
`"~0"`, or a numeric string represented by its value. -/
inductive PreciseResult where
  | inf
  | approxZero
  | val (x : ℝ)

/-- `calculate_precise_price_decimal` of `meteora_dlmm_monitor.py`,
idealised over ℝ (50-digit `Decimal` rounding treated as exact): early
return `"1.0"` for `active_id = 0`; then the `try` branch
`base ** active_id / 10 ** (9 - 6)`, whose only failure mode is
`decimal.Overflow` when the magnitude reaches the default context ceiling
`10 ** 1000000`; on that failure, the `ln`-domain path with the source's
clamps to `"inf"` above `230` and `"~0"` below `-230`. -/
noncomputable def calculate_precise_price_decimal (active_id : ℤ) (bin_step : ℕ) :
    PreciseResult :=
  let base : ℝ := 1 + (bin_step : ℝ) / 10000
  if active_id = 0 then .val 1
  else if base ^ active_id / 10 ^ (9 - 6) < 10 ^ 1000000 then
    .val (base ^ active_id / 10 ^ (9 - 6))
  else
    let ln_result : ℝ := (active_id : ℝ) * Real.log base
    if 230 < ln_result then .inf
    else if ln_result < -230 then .approxZero
    else .val (Real.exp ln_result)

/-! ## `accounts_advanced_filter.py`: SHA-256 and the account discriminator -/

/-- Truncation to a 32-bit word. -/
def w32 (n : Nat) : Nat := n % 4294967296

/-- Rotate the 32-bit word `x` rightwards by `n` positions, expressed
arithmetically over `Nat`. -/
def rotr32 (x n : Nat) : Nat := w32 (x / 2 ^ n + x % 2 ^ n * 2 ^ (32 - n))

/-- SHA-256 `Ch(x,y,z) = (x ∧ y) ⊕ (¬x ∧ z)` on 32-bit words. -/
def sha256Ch (x y z : Nat) : Nat := (x &&& y) ^^^ ((x ^^^ 4294967295) &&& z)

/-- SHA-256 `Maj(x,y,z)`. -/
def sha256Maj (x y z : Nat) : Nat := (x &&& y) ^^^ (x &&& z) ^^^ (y &&& z)

/-- SHA-256 big sigma 0. -/
def sha256S0 (x : Nat) : Nat := rotr32 x 2 ^^^ rotr32 x 13 ^^^ rotr32 x 22

/-- SHA-256 big sigma 1. -/
def sha256S1 (x : Nat) : Nat := rotr32 x 6 ^^^ rotr32 x 11 ^^^ rotr32 x 25

/-- SHA-256 small sigma 0. -/
def sha256s0 (x : Nat) : Nat := rotr32 x 7 ^^^ rotr32 x 18 ^^^ x / 2 ^ 3

/-- SHA-256 small sigma 1. -/
def sha256s1 (x : Nat) : Nat := rotr32 x 17 ^^^ rotr32 x 19 ^^^ x / 2 ^ 10

/-- The 64 SHA-256 round constants. -/
def sha256K : List Nat :=
  [1116352408, 1899447441, 3049323471, 3921009573, 961987163,
   1508970993, 2453635748, 2870763221, 3624381080, 310598401,
   607225278, 1426881987, 1925078388, 2162078206, 2614888103,
   3248222580, 3835390401, 4022224774, 264347078, 604807628,
   770255983, 1249150122, 1555081692, 1996064986, 2554220882,
   2821834349, 2952996808, 3210313671, 3336571891, 3584528711,
   113926993, 338241895, 666307205, 773529912, 1294757372,
   1396182291, 1695183700, 1986661051, 2177026350, 2456956037,
   2730485921, 2820302411, 3259730800, 3345764771, 3516065817,
   3600352804, 4094571909, 275423344, 430227734, 506948616,
   659060556, 883997877, 958139571, 1322822218, 1537002063,
   1747873779, 1955562222, 2024104815, 2227730452, 2361852424,
   2428436474, 2756734187, 3204031479, 3329325298]

/-- The SHA-256 initial hash state. -/
def sha256H0 : List Nat :=
  [1779033703, 3144134277, 1013904242, 2773480762,
   1359893119, 2600822924, 528734635, 1541459225]

/-- A natural number as 8 big-endian bytes (the SHA-256 length field). -/
def be8Bytes (n : Nat) : List Nat :=
  [n / 2 ^ 56 % 256, n / 2 ^ 48 % 256, n / 2 ^ 40 % 256, n / 2 ^ 32 % 256,
   n / 2 ^ 24 % 256, n / 2 ^ 16 % 256, n / 2 ^ 8 % 256, n % 256]

/-- SHA-256 padding: a `0x80` byte, zeros up to 56 mod 64, and the bit
length as 8 big-endian bytes. -/
def sha256Pad (msg : List Nat) : List Nat :=
  msg ++ [128] ++ List.replicate ((119 - msg.length % 64) % 64) 0 ++
    be8Bytes (8 * msg.length)

/-- The big-endian 32-bit word at word index `i` of a 64-byte block. -/
def beWord (l : List Nat) (i : Nat) : Nat :=
  l.getD (4 * i) 0 * 2 ^ 24 + l.getD (4 * i + 1) 0 * 2 ^ 16 +
    l.getD (4 * i + 2) 0 * 2 ^ 8 + l.getD (4 * i + 3) 0

/-- The 64-entry SHA-256 message schedule of one block. -/
def sha256Schedule (block : List Nat) : List Nat :=
  (List.range 48).foldl
    (fun w _ =>
      let t := w.length
      w ++ [w32 (sha256s1 (w.getD (t - 2) 0) + w.getD (t - 7) 0 +
                   sha256s0 (w.getD (t - 15) 0) + w.getD (t - 16) 0)])
    ((List.range 16).map (beWord block))

/-- One SHA-256 compression: 64 rounds over an 8-word state, then the
feed-forward addition of the incoming state. -/
def sha256Compress (h : List Nat) (block : List Nat) : List Nat :=
  let w := sha256Schedule block
  let s := (List.range 64).foldl
    (fun s t =>
      match s with
      | [a, b, c, d, e, f, g, hh] =>
        let t1 := w32 (hh + sha256S1 e + sha256Ch e f g + sha256K.getD t 0 + w.getD t 0)
        let t2 := w32 (sha256S0 a + sha256Maj a b c)
        [w32 (t1 + t2), a, b, c, w32 (d + t1), e, f, g]
      | other => other)
    h
  match h, s with
  | [h0, h1, h2, h3, h4, h5, h6, h7], [a, b, c, d, e, f, g, hh] =>
    [w32 (h0 + a), w32 (h1 + b), w32 (h2 + c), w32 (h3 + d),
     w32 (h4 + e), w32 (h5 + f), w32 (h6 + g), w32 (h7 + hh)]
  | _, _ => h

/-- Fold the compression over the 64-byte blocks of a padded message; the
fuel (instantiated with the list length, far more than the block count)
keeps the recursion structural so that proofs can evaluate it. -/
def sha256BlocksAux (fuel : Nat) (h : List Nat) (l : List Nat) : List Nat :=
  match fuel with
  | 0 => h
  | fuel + 1 =>
    match l with
    | [] => h
    | _ :: _ => sha256BlocksAux fuel (sha256Compress h (l.take 64)) (l.drop 64)

/-- SHA-256 of a byte sequence, as the 32 digest bytes in emission order
(`hashlib.sha256(..).digest()`). -/
def sha256 (msg : List Nat) : List Nat :=
  ((sha256BlocksAux (sha256Pad msg).length sha256H0 (sha256Pad msg)).map
    (fun wrd => [wrd / 2 ^ 24 % 256, wrd / 2 ^ 16 % 256, wrd / 2 ^ 8 % 256, wrd % 256])).flatten

/-- The UTF-8 bytes of the namespace string `"account:"` prepended by
`calculate_discriminator`. -/
def accountNamespaceBytes : List Nat := [97, 99, 99, 111, 117, 110, 116, 58]

/-- `calculate_discriminator` of `accounts_advanced_filter.py`: SHA-256 of
`"account:" + account_name`, first 8 digest bytes, read little-endian by
`int.from_bytes(_, "little")` (modelled by `leVal`, least-significant byte
first).  The account name is given by its UTF-8 bytes. -/
def calculate_discriminator (account_name : List Nat) : Nat :=
  leVal ((sha256 (accountNamespaceBytes ++ account_name)).take 8)

/-- Modelled from the spec (§4.1 `compute_tag`): hash `"account:" +
type_name` with SHA-256, take the first 8 bytes, and read them as a
little-endian unsigned integer — here phrased independently as the
big-endian value of the reversed byte prefix, to be compared with the
source's `int.from_bytes(_, "little")` reading. -/
def compute_tag_spec (type_name : List Nat) : Nat :=
  beVal ((sha256 (accountNamespaceBytes ++ type_name)).take 8).reverse

/-! ## Reference encoder and remaining value functions -/

/-- A natural number as 4 little-endian bytes — the reference encoding of
a string-length prefix (inverse of the `<I` read). -/
def le4Bytes (n : Nat) : List Nat :=
  [n % 256, n / 256 % 256, n / 65536 % 256, n / 16777216 % 256]

/-- Reference encoder for a create-instruction payload: an 8-byte
discriminator, three length-prefixed strings, and a 32-byte creator
address — the layout `decode_create_instruction` reads. -/
def encode_create_instruction (disc name symbol uri creator : List Nat) : List Nat :=
  disc ++ le4Bytes name.length ++ name ++ le4Bytes symbol.length ++ symbol ++
    le4Bytes uri.length ++ uri ++ creator

/-- Value of a base-58 digit sequence, most significant digit first. -/
def b58Val (l : List Nat) : Nat := l.foldl (fun acc d => acc * 58 + d) 0

/-! ## Helper lemmas: positional value functions -/

/-- Folding `acc * B + d` from an arbitrary accumulator splits into the
accumulator's contribution and the fold from zero. -/
theorem foldl_mul_add_acc (B : Nat) (l : List Nat) (acc : Nat) :
    l.foldl (fun a d => a * B + d) acc =
      acc * B ^ l.length + l.foldl (fun a d => a * B + d) 0 := by
  induction l generalizing acc with
  | nil => simp
  | cons x t ih =>
    simp only [List.foldl_cons, List.length_cons]
    rw [ih (acc * B + x), ih (0 * B + x)]
    ring

/-- A big-endian byte value splits at the head. -/
theorem beVal_cons (x : Nat) (t : List Nat) :
    beVal (x :: t) = x * 256 ^ t.length + beVal t := by
  simp only [beVal, List.foldl_cons]
  rw [foldl_mul_add_acc]
  ring_nf

/-- Bytes below 256 give a big-endian value below `256 ^ length`. -/
theorem beVal_lt (l : List Nat) (h : ∀ b ∈ l, b < 256) : beVal l < 256 ^ l.length := by
  induction l with
  | nil => simp [beVal]
  | cons x t ih =>
    rw [beVal_cons]
    have hx : x < 256 := h x (by simp)
    have ht : beVal t < 256 ^ t.length := ih (fun b hb => h b (by simp [hb]))
    calc x * 256 ^ t.length + beVal t < x * 256 ^ t.length + 256 ^ t.length := by omega
      _ = (x + 1) * 256 ^ t.length := by ring
      _ ≤ 256 * 256 ^ t.length := by
          exact Nat.mul_le_mul_right _ (by omega)
      _ = 256 ^ (x :: t).length := by rw [List.length_cons]; ring

/-- In `x * E + v₁ = y * E + v₂` with both residues below `E`, the
quotients and residues agree. -/
theorem digit_block_inj (E x y v₁ v₂ : Nat) (h₁ : v₁ < E) (h₂ : v₂ < E)
    (h : x * E + v₁ = y * E + v₂) : x = y ∧ v₁ = v₂ := by
  have hE : 0 < E := by omega
  have hx : (x * E + v₁) / E = x := by
    rw [Nat.mul_comm x E, Nat.mul_add_div hE, Nat.div_eq_of_lt h₁]
    omega
  have hy : (y * E + v₂) / E = y := by
    rw [Nat.mul_comm y E, Nat.mul_add_div hE, Nat.div_eq_of_lt h₂]
    omega
  have hxy : x = y := by rw [← hx, ← hy, h]
  subst hxy
  exact ⟨rfl, by omega⟩

/-- Equal-length byte sequences with equal big-endian value are equal. -/
theorem beVal_inj (l₁ : List Nat) : ∀ l₂ : List Nat, l₁.length = l₂.length →
    (∀ b ∈ l₁, b < 256) → (∀ b ∈ l₂, b < 256) → beVal l₁ = beVal l₂ → l₁ = l₂ := by
  induction l₁ with
  | nil => intro l₂ hlen _ _ _; cases l₂ with
    | nil => rfl
    | cons y t => simp at hlen
  | cons x t ih =>
    intro l₂ hlen hb₁ hb₂ hval
    cases l₂ with
    | nil => simp at hlen
    | cons y u =>
      simp only [List.length_cons, Nat.add_right_cancel_iff] at hlen
      rw [beVal_cons, beVal_cons, hlen] at hval
      have hv₁ : beVal t < 256 ^ u.length := by
        rw [← hlen]; exact beVal_lt t (fun b hb => hb₁ b (by simp [hb]))
      have hv₂ : beVal u < 256 ^ u.length := beVal_lt u (fun b hb => hb₂ b (by simp [hb]))
      obtain ⟨hxy, hv⟩ := digit_block_inj _ _ _ _ _ hv₁ hv₂ hval
      rw [hxy, ih u hlen (fun b hb => hb₁ b (by simp [hb]))
        (fun b hb => hb₂ b (by simp [hb])) hv]

/-! ## Helper lemmas: base-58 digits -/

/-- With enough fuel, the base-58 digit expansion evaluates back to the
number it expands. -/
theorem b58DigitsAux_val : ∀ fuel n : Nat, n ≤ fuel → b58Val (b58DigitsAux fuel n) = n := by
  intro fuel
  induction fuel with
  | zero => intro n h; interval_cases n; simp [b58DigitsAux, b58Val]
  | succ fuel ih =>
    intro n h
    by_cases h0 : n = 0
    · simp [b58DigitsAux, h0, b58Val]
    · have hlt : n / 58 ≤ fuel := by
        have := Nat.div_lt_self (Nat.pos_of_ne_zero h0) (by norm_num : 1 < 58)
        omega
      simp only [b58DigitsAux, h0, if_false]
      simp only [b58Val, List.foldl_append, List.foldl_cons, List.foldl_nil]
      have := ih (n / 58) hlt
      simp only [b58Val] at this
      rw [this]
      omega

/-- Every base-58 digit produced by the expansion is below 58. -/
theorem b58DigitsAux_lt : ∀ fuel n d : Nat, d ∈ b58DigitsAux fuel n → d < 58 := by
  intro fuel
  induction fuel with
  | zero => intro n d h; simp [b58DigitsAux] at h
  | succ fuel ih =>
    intro n d h
    by_cases h0 : n = 0
    · simp [b58DigitsAux, h0] at h
    · simp only [b58DigitsAux, h0, if_false, List.mem_append, List.mem_singleton] at h
      rcases h with h | h
      · exact ih _ _ h
      · omega

/-- Zero has the empty base-58 expansion at any fuel. -/
theorem b58DigitsAux_zero (fuel : Nat) : b58DigitsAux fuel 0 = [] := by
  cases fuel <;> simp [b58DigitsAux]

/-- A positive number's base-58 expansion starts with a nonzero digit. -/
theorem b58DigitsAux_head : ∀ fuel n : Nat, 0 < n → n ≤ fuel →
    ∃ d t, b58DigitsAux fuel n = d :: t ∧ d ≠ 0 := by
  intro fuel
  induction fuel with
  | zero => intro n h h'; omega
  | succ fuel ih =>
    intro n h h'
    have h0 : n ≠ 0 := by omega
    simp only [b58DigitsAux, h0, if_false]
    by_cases hq : n / 58 = 0
    · refine ⟨n % 58, [], by simp [hq, b58DigitsAux_zero], ?_⟩
      have : n < 58 := by omega
      omega
    · have hlt : n / 58 ≤ fuel := by
        have := Nat.div_lt_self h (by norm_num : 1 < 58)
        omega
      obtain ⟨d, t, ht, hd⟩ := ih (n / 58) (Nat.pos_of_ne_zero hq) hlt
      exact ⟨d, t ++ [n % 58], by rw [ht]; rfl, hd⟩

/-! ## Helper lemmas: base-58 encoding injectivity -/

/-- The base-58 alphabet has pairwise distinct characters below index 58. -/
theorem b58Alphabet_inj :
    ∀ d₁ < 58, ∀ d₂ < 58, b58Alphabet.getD d₁ ' ' = b58Alphabet.getD d₂ ' ' → d₁ = d₂ := by
  decide

/-- Mapping distinct base-58 digits through the alphabet is injective. -/
theorem b58_map_inj : ∀ l₁ l₂ : List Nat, (∀ d ∈ l₁, d < 58) → (∀ d ∈ l₂, d < 58) →
    l₁.map (fun d => b58Alphabet.getD d ' ') = l₂.map (fun d => b58Alphabet.getD d ' ') →
    l₁ = l₂ := by
  intro l₁
  induction l₁ with
  | nil => intro l₂ _ _ h; cases l₂ with
    | nil => rfl
    | cons y u => simp at h
  | cons x t ih =>
    intro l₂ h₁ h₂ h
    cases l₂ with
    | nil => simp at h
    | cons y u =>
      simp only [List.map_cons, List.cons.injEq] at h
      have hx : x = y :=
        b58Alphabet_inj x (h₁ x (by simp)) y (h₂ y (by simp)) h.1
      rw [hx, ih u (fun d hd => h₁ d (by simp [hd])) (fun d hd => h₂ d (by simp [hd])) h.2]

/-- Splitting off a leading run of a character `c` from a list whose tail
does not start with `c` is unambiguous. -/
theorem replicate_append_inj (c : Char) :
    ∀ z₁ z₂ : Nat, ∀ m₁ m₂ : List Char, (∀ t, m₁ ≠ c :: t) → (∀ t, m₂ ≠ c :: t) →
    List.replicate z₁ c ++ m₁ = List.replicate z₂ c ++ m₂ → z₁ = z₂ ∧ m₁ = m₂ := by
  intro z₁
  induction z₁ with
  | zero =>
    intro z₂ m₁ m₂ hm₁ hm₂ h
    cases z₂ with
    | zero => simpa using h
    | succ k =>
      simp only [List.replicate_succ, List.replicate, List.nil_append,
        List.cons_append] at h
      exact absurd h (hm₁ _)
  | succ k ih =>
    intro z₂ m₁ m₂ hm₁ hm₂ h
    cases z₂ with
    | zero =>
      simp only [List.replicate_succ, List.replicate, List.nil_append,
        List.cons_append] at h
      exact absurd h.symm (hm₂ _)
    | succ k' =>
      simp only [List.replicate_succ, List.cons_append, List.cons.injEq, true_and] at h
      obtain ⟨hz, hm⟩ := ih k' m₁ m₂ hm₁ hm₂ h
      exact ⟨by omega, hm⟩

/-- The base-58 digit part of an encoding never starts with `'1'` (the
digit character of 0), because a positive value's expansion starts with a
nonzero digit. -/
theorem b58_digit_part_head (n : Nat) :
    ∀ t, (b58Digits n).map (fun d => b58Alphabet.getD d ' ') ≠ '1' :: t := by
  intro t h
  by_cases h0 : n = 0
  · rw [h0] at h
    simp [b58Digits, b58DigitsAux_zero] at h
  · obtain ⟨d, u, hd, hne⟩ := b58DigitsAux_head n n (Nat.pos_of_ne_zero h0) le_rfl
    rw [b58Digits, hd] at h
    simp only [List.map_cons, List.cons.injEq] at h
    have hdlt : d < 58 := b58DigitsAux_lt n n d (by rw [hd]; simp)
    have : d = 0 := b58Alphabet_inj d hdlt 0 (by norm_num) (by simpa using h.1)
    exact hne this

/-- `b58encode` is injective on equal-length byte sequences: the encoded
string determines the bytes. -/
theorem b58encode_inj (l₁ l₂ : List Nat) (hlen : l₁.length = l₂.length)
    (hb₁ : ∀ b ∈ l₁, b < 256) (hb₂ : ∀ b ∈ l₂, b < 256)
    (h : b58encode l₁ = b58encode l₂) : l₁ = l₂ := by
  unfold b58encode at h
  obtain ⟨_, hm⟩ := replicate_append_inj '1' _ _ _ _
    (b58_digit_part_head (beVal l₁)) (b58_digit_part_head (beVal l₂)) h
  have hd : b58Digits (beVal l₁) = b58Digits (beVal l₂) :=
    b58_map_inj _ _ (fun d hd => b58DigitsAux_lt _ _ d hd)
      (fun d hd => b58DigitsAux_lt _ _ d hd) hm
  have hv : beVal l₁ = beVal l₂ := by
    have h₁ := b58DigitsAux_val (beVal l₁) (beVal l₁) le_rfl
    have h₂ := b58DigitsAux_val (beVal l₂) (beVal l₂) le_rfl
    rw [← h₁, ← h₂]
    unfold b58Digits at hd
    rw [hd]
  exact beVal_inj l₁ l₂ hlen hb₁ hb₂ hv

/-! ## Helper lemmas: the instruction reader chain -/

/-- The little-endian length prefix is 4 bytes long. -/
theorem le4Bytes_length (n : Nat) : (le4Bytes n).length = 4 := by
  simp [le4Bytes]

/-- Reading back a 4-byte little-endian length prefix recovers the length
when it fits in 32 bits. -/
theorem leVal_le4Bytes (n : Nat) (h : n < 4294967296) : leVal (le4Bytes n) = n := by
  simp only [le4Bytes, leVal, List.foldr]
  omega

/-- `read_string` at the start of a well-formed length-prefixed string
returns exactly that string and advances past it. -/
theorem read_string_exact (pre s rest : List Nat) (o : Nat) (ho : pre.length = o)
    (hlen : s.length < 4294967296) (hv : isValidUtf8 s = true) :
    read_string (pre ++ (le4Bytes s.length ++ (s ++ rest))) o =
      .ok (s, o + 4 + s.length) := by
  unfold read_string
  have hL : (pre ++ (le4Bytes s.length ++ (s ++ rest))).length =
      o + 4 + s.length + rest.length := by
    simp [le4Bytes_length, ho]
    omega
  rw [if_neg (by omega)]
  have hdrop : (pre ++ (le4Bytes s.length ++ (s ++ rest))).drop o =
      le4Bytes s.length ++ (s ++ rest) := List.drop_left' ho
  have htake : (le4Bytes s.length ++ (s ++ rest)).take 4 = le4Bytes s.length :=
    List.take_left' (le4Bytes_length s.length)
  have hdrop4 : (pre ++ (le4Bytes s.length ++ (s ++ rest))).drop (o + 4) =
      s ++ rest := by
    have : pre ++ (le4Bytes s.length ++ (s ++ rest)) =
        (pre ++ le4Bytes s.length) ++ (s ++ rest) := by
      simp [List.append_assoc]
    rw [this]
    exact List.drop_left' (by simp [le4Bytes_length, ho])
  simp only [hdrop, htake, hdrop4, leVal_le4Bytes s.length hlen]
  rw [List.take_left' rfl, if_pos hv]

/-- `read_pubkey` at the start of a 32-byte key returns its base-58 form
and advances by 32. -/
theorem read_pubkey_exact (pre c rest : List Nat) (o : Nat) (ho : pre.length = o)
    (hc : c.length = 32) :
    read_pubkey (pre ++ (c ++ rest)) o = (b58encode c, o + 32) := by
  unfold read_pubkey
  rw [List.drop_left' ho, List.take_left' hc]

/-- When every account index is inside the key table, `get_account_key`
returns the sentinel for positions beyond the index list and the base-58
key otherwise. -/
theorem get_account_key_eval (keys : List (List Nat)) (accounts : List Nat) (p : Nat)
    (h : p < accounts.length → accounts.getD p 0 < keys.length) :
    get_account_key keys accounts p =
      .ok (if accounts.length ≤ p then naString
           else b58encode (keys.getD (accounts.getD p 0) [])) := by
  unfold get_account_key
  by_cases hp : accounts.length ≤ p
  · rw [if_pos hp, if_pos hp]
  · rw [if_neg hp, if_neg hp]
    have hk : accounts.getD p 0 < keys.length := h (by omega)
    rw [List.get?_eq_get hk, List.getD_eq_getElem keys [] hk]
    rfl

/-! ## Claim C1 -/

/-- Claim C1 (counterexample): on the empty instruction payload — a
truncated input — `decode_create_instruction` does not return a
`TruncatedInput` failure value; the `struct.error` exception raised by
`struct.unpack_from` propagates out of the decoder (modelled as
`Except.error PyErr.structError`), so an exception does cross the decoder
boundary and no failure-result value exists in the code. -/
theorem claim_C1_counterexample :
    decode_create_instruction [] [] [] = Except.error PyErr.structError := by decide

/-- Claim C1 (amended): whenever the payload is too short for the first
4-byte length prefix (fewer than 12 bytes, offset 8 plus 4), the
`struct.error` exception from `struct.unpack_from` escapes
`decode_create_instruction` uncaught; the source has no `TruncatedInput`
result value, and string-body and creator reads silently truncate via
Python slicing instead of failing. -/
theorem claim_C1_amended (ix_data : List Nat) (keys : List (List Nat))
    (accounts : List Nat) (h : ix_data.length < 12) :
    decode_create_instruction ix_data keys accounts = Except.error PyErr.structError := by
  unfold decode_create_instruction decode_create_fields read_string
  rw [if_pos (by omega : ix_data.length < 8 + 4)]
  rfl

/-- Witness for C1: the amended theorem applied at the empty payload. -/
theorem claim_C1_witness :
    (List.length ([] : List Nat) < 12) ∧
      decode_create_instruction [] [] [] = Except.error PyErr.structError :=
  ⟨by decide, claim_C1_amended [] [] [] (by decide)⟩

/-! ## Claim C2 -/

/-- Claim C2 (confirmed): for a well-formed payload — 8-byte
discriminator, three valid-UTF-8 strings with 32-bit-representable
lengths, a 32-byte creator — followed by any trailing bytes, the
sequential reads of `decode_create_instruction` consume exactly
`8 + (4+L1) + (4+L2) + (4+L3) + 32` bytes and reproduce the three strings
exactly; the creator is returned as the base-58 rendering of exactly the
original 32 address bytes, and that rendering is injective on 32-byte
sequences, so the address bytes are reproduced exactly.  The account-index
hypothesis only keeps the unrelated account-resolution step from raising. -/
theorem claim_C2_roundtrip (disc name symbol uri creator extra : List Nat)
    (keys : List (List Nat)) (accounts : List Nat)
    (hdisc : disc.length = 8)
    (hn : name.length < 4294967296) (hvn : isValidUtf8 name = true)
    (hs : symbol.length < 4294967296) (hvs : isValidUtf8 symbol = true)
    (hu : uri.length < 4294967296) (hvu : isValidUtf8 uri = true)
    (hc : creator.length = 32) (hcb : ∀ b ∈ creator, b < 256)
    (hacc : ∀ p, p < accounts.length → accounts.getD p 0 < keys.length) :
    decode_create_fields (encode_create_instruction disc name symbol uri creator ++ extra) =
      .ok ((name, symbol, uri, b58encode creator),
        8 + (4 + name.length) + (4 + symbol.length) + (4 + uri.length) + 32) ∧
    (∃ mint bc abc usr, decode_create_instruction
        (encode_create_instruction disc name symbol uri creator ++ extra) keys accounts =
      .ok { name := name, symbol := symbol, uri := uri, creator := b58encode creator,
            mint := mint, bonding_curve := bc, associated_bonding_curve := abc,
            user := usr }) ∧
    (∀ c', c'.length = 32 → (∀ b ∈ c', b < 256) →
      b58encode c' = b58encode creator → c' = creator) := by
  have hP1 : encode_create_instruction disc name symbol uri creator ++ extra =
      disc ++ (le4Bytes name.length ++ (name ++ (le4Bytes symbol.length ++ (symbol ++
        (le4Bytes uri.length ++ (uri ++ (creator ++ extra))))))) := by
    simp [encode_create_instruction, List.append_assoc]
  have e1 : read_string (encode_create_instruction disc name symbol uri creator ++ extra) 8 =
      .ok (name, 8 + 4 + name.length) := by
    rw [hP1]; exact read_string_exact disc name _ 8 hdisc hn hvn
  have hP2 : encode_create_instruction disc name symbol uri creator ++ extra =
      (disc ++ le4Bytes name.length ++ name) ++ (le4Bytes symbol.length ++ (symbol ++
        (le4Bytes uri.length ++ (uri ++ (creator ++ extra))))) := by
    simp [encode_create_instruction, List.append_assoc]
  have e2 : read_string (encode_create_instruction disc name symbol uri creator ++ extra)
      (8 + 4 + name.length) =
      .ok (symbol, 8 + 4 + name.length + 4 + symbol.length) := by
    rw [hP2]
    exact read_string_exact _ symbol _ _ (by simp [hdisc, le4Bytes_length]; omega) hs hvs
  have hP3 : encode_create_instruction disc name symbol uri creator ++ extra =
      (disc ++ le4Bytes name.length ++ name ++ le4Bytes symbol.length ++ symbol) ++
        (le4Bytes uri.length ++ (uri ++ (creator ++ extra))) := by
    simp [encode_create_instruction, List.append_assoc]
  have e3 : read_string (encode_create_instruction disc name symbol uri creator ++ extra)
      (8 + 4 + name.length + 4 + symbol.length) =
      .ok (uri, 8 + 4 + name.length + 4 + symbol.length + 4 + uri.length) := by
    rw [hP3]
    exact read_string_exact _ uri _ _ (by simp [hdisc, le4Bytes_length]; omega) hu hvu
  have hP4 : encode_create_instruction disc name symbol uri creator ++ extra =
      (disc ++ le4Bytes name.length ++ name ++ le4Bytes symbol.length ++ symbol ++
        le4Bytes uri.length ++ uri) ++ (creator ++ extra) := by
    simp [encode_create_instruction, List.append_assoc]
  have e4 : read_pubkey (encode_create_instruction disc name symbol uri creator ++ extra)
      (8 + 4 + name.length + 4 + symbol.length + 4 + uri.length) =
      (b58encode creator, 8 + 4 + name.length + 4 + symbol.length + 4 + uri.length + 32) := by
    rw [hP4]
    exact read_pubkey_exact _ creator extra _ (by simp [hdisc, le4Bytes_length]; omega) hc
  have hfields : decode_create_fields
      (encode_create_instruction disc name symbol uri creator ++ extra) =
      .ok ((name, symbol, uri, b58encode creator),
        8 + 4 + name.length + 4 + symbol.length + 4 + uri.length + 32) := by
    simp only [decode_create_fields, bind, Except.bind, e1, e2, e3, e4, pure, Except.pure]
  refine ⟨?_, ?_, ?_⟩
  · rw [hfields]
    have : 8 + 4 + name.length + 4 + symbol.length + 4 + uri.length + 32 =
        8 + (4 + name.length) + (4 + symbol.length) + (4 + uri.length) + 32 := by ring
    rw [this]
  · have g0 := get_account_key_eval keys accounts 0 (fun h => hacc 0 h)
    have g2 := get_account_key_eval keys accounts 2 (fun h => hacc 2 h)
    have g3 := get_account_key_eval keys accounts 3 (fun h => hacc 3 h)
    have g7 := get_account_key_eval keys accounts 7 (fun h => hacc 7 h)
    refine ⟨if accounts.length ≤ 0 then naString else b58encode (keys.getD (accounts.getD 0 0) []),
      if accounts.length ≤ 2 then naString else b58encode (keys.getD (accounts.getD 2 0) []),
      if accounts.length ≤ 3 then naString else b58encode (keys.getD (accounts.getD 3 0) []),
      if accounts.length ≤ 7 then naString else b58encode (keys.getD (accounts.getD 7 0) []), ?_⟩
    simp only [decode_create_instruction, bind, Except.bind, hfields, g0, g2, g3, g7,
      pure, Except.pure]
  · intro c' h1 h2 h3
    exact b58encode_inj c' creator (by rw [h1, hc]) h2 hcb h3

/-- Witness for C2: a concrete payload with strings `"A"`, `"BC"`, `""`,
a 32-byte creator of sevens, two trailing bytes, and a full 8-entry
account list over a one-key table. -/
theorem claim_C2_witness :
    isValidUtf8 [65] = true ∧
    (decode_create_fields (encode_create_instruction (List.replicate 8 1) [65] [66, 67] []
        (List.replicate 32 7) ++ [9, 9]) =
      .ok (([65], [66, 67], [], b58encode (List.replicate 32 7)),
        8 + (4 + [65].length) + (4 + [66, 67].length) + (4 + ([] : List Nat).length) + 32) ∧
    (∃ mint bc abc usr, decode_create_instruction
        (encode_create_instruction (List.replicate 8 1) [65] [66, 67] []
          (List.replicate 32 7) ++ [9, 9]) [[3]] [0, 0, 0, 0, 0, 0, 0, 0] =
      .ok { name := [65], symbol := [66, 67], uri := [],
            creator := b58encode (List.replicate 32 7),
            mint := mint, bonding_curve := bc, associated_bonding_curve := abc,
            user := usr }) ∧
    (∀ c', c'.length = 32 → (∀ b ∈ c', b < 256) →
      b58encode c' = b58encode (List.replicate 32 7) → c' = List.replicate 32 7)) :=
  ⟨by decide,
   claim_C2_roundtrip (List.replicate 8 1) [65] [66, 67] [] (List.replicate 32 7) [9, 9]
     [[3]] [0, 0, 0, 0, 0, 0, 0, 0] (by decide) (by decide) (by decide) (by decide)
     (by decide) (by decide) (by decide) (by decide) (by decide) (by decide)⟩

/-! ## Claim C3 -/

/-- Claim C3 (confirmed): any buffer shorter than the declared minimum
account-layout size of 500 bytes makes `parse_meteora_dlmm_account_data`
fail immediately — the length test precedes every field read, and the
failure value carries no partial result (the source's failure value is the
catch-all `None`, modelled as `none`). -/
theorem claim_C3_short_buffer (data : List Nat) (h : data.length < 500) :
    parse_meteora_dlmm_account_data data = none := by
  unfold parse_meteora_dlmm_account_data
  rw [if_pos h]

/-- Witness for C3: the empty buffer. -/
theorem claim_C3_witness :
    (List.length ([] : List Nat) < 500) ∧
      parse_meteora_dlmm_account_data [] = none :=
  ⟨by decide, claim_C3_short_buffer [] (by decide)⟩

/-! ## Claim C9 -/

/-- Claim C9 (confirmed): a concrete instruction whose account-index list
has 8 entries but whose position-7 entry (value 1) is outside the one-key
table makes `decode_create_instruction` raise an uncaught `IndexError`
(`Except.error PyErr.indexError`) instead of returning a record or a
typed failure — `get_account_key` bounds-checks only the position within
the index list, never the resolved index into the key table. -/
theorem claim_C9_index_escape :
    decode_create_instruction
      (List.replicate 8 0 ++ [0, 0, 0, 0] ++ [0, 0, 0, 0] ++ [0, 0, 0, 0] ++
        List.replicate 32 0)
      [List.replicate 32 0] [0, 0, 0, 0, 0, 0, 0, 1] =
      Except.error PyErr.indexError := by decide

/-! ## Claim C6 -/

/-- Claim C6 (confirmed): when the account-index list has fewer than 8
entries and the payload's byte fields decode, `decode_create_instruction`
still returns a record: position 7 (`user`) — necessarily beyond the
list — degrades to the `"N/A"` sentinel, as does any of positions 0, 2, 3
that is beyond the list, while every position inside the list resolves
normally through the key table and all byte-level fields are decoded
normally.  The resolution hypothesis keeps in-range positions from
raising `IndexError` (claim C9's failure mode). -/
theorem claim_C6_short_accounts (ix_data : List Nat) (keys : List (List Nat))
    (accounts : List Nat) (hshort : accounts.length < 8)
    (name symbol uri : List Nat) (creator : List Char) (endOffset : Nat)
    (hfields : decode_create_fields ix_data = .ok ((name, symbol, uri, creator), endOffset))
    (hres : ∀ p, p < accounts.length → accounts.getD p 0 < keys.length) :
    ∃ info, decode_create_instruction ix_data keys accounts = .ok info ∧
      info.user = naString ∧
      (accounts.length ≤ 0 → info.mint = naString) ∧
      (accounts.length ≤ 2 → info.bonding_curve = naString) ∧
      (accounts.length ≤ 3 → info.associated_bonding_curve = naString) ∧
      (0 < accounts.length → info.mint = b58encode (keys.getD (accounts.getD 0 0) [])) ∧
      (2 < accounts.length →
        info.bonding_curve = b58encode (keys.getD (accounts.getD 2 0) [])) ∧
      (3 < accounts.length →
        info.associated_bonding_curve = b58encode (keys.getD (accounts.getD 3 0) [])) ∧
      info.name = name ∧ info.symbol = symbol ∧ info.uri = uri ∧ info.creator = creator := by
  have g0 := get_account_key_eval keys accounts 0 (fun h => hres 0 h)
  have g2 := get_account_key_eval keys accounts 2 (fun h => hres 2 h)
  have g3 := get_account_key_eval keys accounts 3 (fun h => hres 3 h)
  have g7 := get_account_key_eval keys accounts 7 (fun h => hres 7 h)
  rw [if_pos (by omega : accounts.length ≤ 7)] at g7
  refine ⟨{ name := name, symbol := symbol, uri := uri, creator := creator,
            mint := if accounts.length ≤ 0 then naString
              else b58encode (keys.getD (accounts.getD 0 0) []),
            bonding_curve := if accounts.length ≤ 2 then naString
              else b58encode (keys.getD (accounts.getD 2 0) []),
            associated_bonding_curve := if accounts.length ≤ 3 then naString
              else b58encode (keys.getD (accounts.getD 3 0) []),
            user := naString }, ?_, rfl, ?_, ?_, ?_, ?_, ?_, ?_, rfl, rfl, rfl, rfl⟩
  · simp only [decode_create_instruction, bind, Except.bind, hfields, g0, g2, g3, g7,
      pure, Except.pure]
  · intro h; rw [if_pos h]
  · intro h; rw [if_pos h]
  · intro h; rw [if_pos h]
  · intro h; exact if_neg (by omega)
  · intro h; exact if_neg (by omega)
  · intro h; exact if_neg (by omega)

/-- Witness for C6: a 52-byte payload with three empty strings, a
three-entry account-index list over a one-key table. -/
theorem claim_C6_witness :
    (List.length [0, 0, 0] < 8) ∧
    (∃ info, decode_create_instruction
        (List.replicate 8 0 ++ [0, 0, 0, 0] ++ [0, 0, 0, 0] ++ [0, 0, 0, 0] ++
          List.replicate 32 0) [List.replicate 32 0] [0, 0, 0] = .ok info ∧
      info.user = naString ∧
      (List.length [0, 0, 0] ≤ 0 → info.mint = naString) ∧
      (List.length [0, 0, 0] ≤ 2 → info.bonding_curve = naString) ∧
      (List.length [0, 0, 0] ≤ 3 → info.associated_bonding_curve = naString) ∧
      (0 < List.length [0, 0, 0] →
        info.mint = b58encode ([List.replicate 32 0].getD ([0, 0, 0].getD 0 0) [])) ∧
      (2 < List.length [0, 0, 0] →
        info.bonding_curve = b58encode ([List.replicate 32 0].getD ([0, 0, 0].getD 2 0) [])) ∧
      (3 < List.length [0, 0, 0] →
        info.associated_bonding_curve =
          b58encode ([List.replicate 32 0].getD ([0, 0, 0].getD 3 0) [])) ∧
      info.name = [] ∧ info.symbol = [] ∧ info.uri = [] ∧
      info.creator = b58encode (List.replicate 32 0)) :=
  ⟨by decide,
   claim_C6_short_accounts
     (List.replicate 8 0 ++ [0, 0, 0, 0] ++ [0, 0, 0, 0] ++ [0, 0, 0, 0] ++
       List.replicate 32 0) [List.replicate 32 0] [0, 0, 0] (by decide)
     [] [] [] (b58encode (List.replicate 32 0)) 52 (by decide) (by decide)⟩

/-! ## Helper lemmas: evaluating the account parser -/

/-- An in-bounds unsigned read succeeds with the little-endian value of
its slice. -/
theorem unpackU_of_le (data : List Nat) (o w : Nat) (h : o + w ≤ data.length) :
    unpackU data o w = some (leVal ((data.drop o).take w)) := by
  unfold unpackU
  rw [if_pos h]

/-- An in-bounds signed read succeeds with the two's-complement reading
of its slice. -/
theorem unpackI_of_le (data : List Nat) (o w : Nat) (h : o + w ≤ data.length) :
    unpackI data o w = some (toSigned w (leVal ((data.drop o).take w))) := by
  unfold unpackI
  rw [unpackU_of_le data o w h]
  rfl

/-- Full evaluation of `parse_meteora_dlmm_account_data` on any buffer of
at least 500 bytes: every field is the read of its absolute offset in the
layout, and the trailing `ProtocolFee` group is present (the 232-byte
prefix always fits inside 500). -/
theorem parse_dlmm_eval (data : List Nat) (h : 500 ≤ data.length) :
    parse_meteora_dlmm_account_data data = some
      { static_parameters :=
          { base_factor := leVal ((data.drop 8).take 2),
            filter_period := leVal ((data.drop 10).take 2),
            decay_period := leVal ((data.drop 12).take 2),
            reduction_factor := leVal ((data.drop 14).take 2),
            variable_fee_control := leVal ((data.drop 16).take 4),
            max_volatility_accumulator := leVal ((data.drop 20).take 4),
            min_bin_id := toSigned 4 (leVal ((data.drop 24).take 4)),
            max_bin_id := toSigned 4 (leVal ((data.drop 28).take 4)),
            protocol_share := leVal ((data.drop 32).take 2),
            base_fee_power_factor := leVal ((data.drop 34).take 1) },
        variable_parameters :=
          { volatility_accumulator := leVal ((data.drop 40).take 4),
            volatility_reference := leVal ((data.drop 44).take 4),
            index_reference := toSigned 4 (leVal ((data.drop 48).take 4)),
            last_update_timestamp := toSigned 8 (leVal ((data.drop 56).take 8)) },
        bump_seed := leVal ((data.drop 72).take 1),
        bin_step_seed := leVal ((data.drop 73).take 2),
        pair_type := leVal ((data.drop 75).take 1),
        active_id := toSigned 4 (leVal ((data.drop 76).take 4)),
        bin_step := leVal ((data.drop 80).take 2),
        status := leVal ((data.drop 82).take 1),
        require_base_factor_seed := leVal ((data.drop 83).take 1),
        base_factor_seed := leVal ((data.drop 84).take 2),
        activation_type := leVal ((data.drop 86).take 1),
        creator_pool_on_off_control := leVal ((data.drop 87).take 1),
        token_x_mint := b58encode ((data.drop 88).take 32),
        token_y_mint := b58encode ((data.drop 120).take 32),
        reserve_x := b58encode ((data.drop 152).take 32),
        reserve_y := b58encode ((data.drop 184).take 32),
        protocol_fee := some
          { amount_x := leVal ((data.drop 216).take 8),
            amount_y := leVal ((data.drop 224).take 8) } } := by
  unfold parse_meteora_dlmm_account_data parse_static_parameters
    parse_variable_parameters parse_protocol_fee
  simp (disch := omega) only [unpackU_of_le, unpackI_of_le, if_neg, if_pos,
    bind, Option.bind, Nat.reduceAdd, not_lt, not_le]
  rfl

/-! ## Claims C7 and C10 -/

/-- Claim C7 (confirmed): once the 500-byte minimum-length precondition
passes, every mandatory field read of the account decode stays within
bounds — the parse succeeds — and the whole result depends only on the
first 232 bytes (all reads, including the trailing `ProtocolFee` group at
offsets 216–231, stay inside them); the `ProtocolFee` group is read
exactly under the source's `len(data) >= offset + 16` test, which the
500-byte minimum always satisfies. -/
theorem claim_C7_in_bounds (data : List Nat) (h : 500 ≤ data.length) :
    (parse_meteora_dlmm_account_data data).isSome = true ∧
    ∀ data' : List Nat, data'.length = data.length → data.take 232 = data'.take 232 →
      parse_meteora_dlmm_account_data data = parse_meteora_dlmm_account_data data' := by
  constructor
  · rw [parse_dlmm_eval data h]
    rfl
  · intro data' hlen htake
    have h' : 500 ≤ data'.length := by omega
    have hsl : ∀ o w, o + w ≤ 232 →
        (data.drop o).take w = (data'.drop o).take w := by
      intro o w how
      have key : ∀ l : List Nat, ((l.take 232).drop o).take w = (l.drop o).take w := by
        intro l
        rw [List.drop_take, List.take_take, Nat.min_eq_left (by omega)]
      rw [← key data, ← key data', htake]
    rw [parse_dlmm_eval data h, parse_dlmm_eval data' h']
    rw [hsl 8 2 (by omega), hsl 10 2 (by omega), hsl 12 2 (by omega),
      hsl 14 2 (by omega), hsl 16 4 (by omega), hsl 20 4 (by omega),
      hsl 24 4 (by omega), hsl 28 4 (by omega), hsl 32 2 (by omega),
      hsl 34 1 (by omega), hsl 40 4 (by omega), hsl 44 4 (by omega),
      hsl 48 4 (by omega), hsl 56 8 (by omega), hsl 72 1 (by omega),
      hsl 73 2 (by omega), hsl 75 1 (by omega), hsl 76 4 (by omega),
      hsl 80 2 (by omega), hsl 82 1 (by omega), hsl 83 1 (by omega),
      hsl 84 2 (by omega), hsl 86 1 (by omega), hsl 87 1 (by omega),
      hsl 88 32 (by omega), hsl 120 32 (by omega), hsl 152 32 (by omega),
      hsl 184 32 (by omega), hsl 216 8 (by omega), hsl 224 8 (by omega)]

set_option maxRecDepth 40000 in
/-- Witness for C7: the all-zero 500-byte buffer. -/
theorem claim_C7_witness :
    (500 ≤ (List.replicate 500 0).length) ∧
    ((parse_meteora_dlmm_account_data (List.replicate 500 0)).isSome = true ∧
     ∀ data' : List Nat, data'.length = (List.replicate 500 0).length →
       (List.replicate 500 0).take 232 = data'.take 232 →
       parse_meteora_dlmm_account_data (List.replicate 500 0) =
         parse_meteora_dlmm_account_data data') :=
  ⟨by decide, claim_C7_in_bounds (List.replicate 500 0) (by decide)⟩

/-- Claim C10 (confirmed): on any buffer of at least 500 bytes the decode
returns `active_id` as the signed 32-bit little-endian integer at
absolute offsets 76–79 and `bin_step` as the unsigned 16-bit
little-endian integer at absolute offsets 80–81. -/
theorem claim_C10_offsets (data : List Nat) (h : 500 ≤ data.length) :
    ∃ pd, parse_meteora_dlmm_account_data data = some pd ∧
      pd.active_id = toSigned 4 (leVal ((data.drop 76).take 4)) ∧
      pd.bin_step = leVal ((data.drop 80).take 2) :=
  ⟨_, parse_dlmm_eval data h, rfl, rfl⟩

set_option maxRecDepth 40000 in
/-- Witness for C10: a 500-byte buffer carrying `-2147483647` at offsets
76–79 and `261` at offsets 80–81. -/
theorem claim_C10_witness :
    (500 ≤ (List.replicate 76 0 ++ [1, 0, 0, 128] ++ [5, 1] ++
      List.replicate 418 0).length) ∧
    (∃ pd, parse_meteora_dlmm_account_data
        (List.replicate 76 0 ++ [1, 0, 0, 128] ++ [5, 1] ++ List.replicate 418 0) =
        some pd ∧
      pd.active_id = toSigned 4 (leVal (((List.replicate 76 0 ++ [1, 0, 0, 128] ++
        [5, 1] ++ List.replicate 418 0).drop 76).take 4)) ∧
      pd.bin_step = leVal (((List.replicate 76 0 ++ [1, 0, 0, 128] ++ [5, 1] ++
        List.replicate 418 0).drop 80).take 2)) :=
  ⟨by decide, claim_C10_offsets _ (by decide)⟩

/-! ## Claim C4 -/

/-- Claim C4 (counterexample): with `bin_step = 1 > 0` and
`active_id` going from `0` to `1`, the price strictly falls —
`calculate_dlmm_price_actual 0 1 = 1.0` (the unadjusted early return)
while `calculate_dlmm_price_actual 1 1 = 1.0001 / 1000 < 1` (the direct
path divides by the decimal-places offset `10 ** (9 - 6)`) — so the price
is not strictly increasing in `active_id` for fixed positive step. -/
theorem claim_C4_counterexample :
    (calculate_dlmm_price_actual 1 1).toEReal <
      (calculate_dlmm_price_actual 0 1).toEReal := by
  have h0 : calculate_dlmm_price_actual 0 1 = .val 1 := by
    simp [calculate_dlmm_price_actual]
  have hov1 : (1 + (1 : ℝ) / 10000) ^ (1 : ℤ) < floatOverflowBound := by
    rw [zpow_one]
    norm_num [floatOverflowBound]
  have hun1 : ¬((1 + (1 : ℝ) / 10000) ^ (1 : ℤ) / 10 ^ (9 - 6) ≤ floatUnderflowBound) := by
    rw [zpow_one]
    norm_num [floatUnderflowBound]
  have h1 : calculate_dlmm_price_actual 1 1 =
      .val ((1 + (1 : ℝ) / 10000) ^ (1 : ℤ) / 10 ^ (9 - 6)) := by
    simp only [calculate_dlmm_price_actual, Nat.cast_one]
    rw [if_neg (by decide), if_pos ⟨by decide, hov1⟩, if_neg hun1]
  rw [h0, h1]
  show (((1 + (1 : ℝ) / 10000) ^ (1 : ℤ) / 10 ^ (9 - 6) : ℝ) : EReal) < ((1 : ℝ) : EReal)
  rw [EReal.coe_lt_coe_iff]
  norm_num

/-- Claim C4 (amended): for fixed `bin_step > 0` the price is strictly
increasing in `active_id` on the part of the direct-path region where the
program's float range limits do not bite: both indices nonzero with
magnitude at most 500, the larger power below the `OverflowError` bound
(otherwise the program falls through to the log path and clamps to
`inf`), and the smaller quotient above the underflow-to-`0.0` bound
(otherwise the program returns `0.0`); there the price is
`(1 + bin_step/10000) ^ active_id / 10 ** (9 - 6)`.  (The `active_id = 0`
early return of `1.0` omits the `10 ** (9 - 6)` adjustment, the
log-domain path omits the adjustment and clamps, and the over/underflow
plateaus at `inf` and `0.0`, so strictness fails outside this region.) -/
theorem claim_C4_monotone_direct (bin_step : ℕ) (a b : ℤ) (hstep : 0 < bin_step)
    (hab : a < b) (ha0 : a ≠ 0) (hb0 : b ≠ 0) (ha : |a| ≤ 500) (hb : |b| ≤ 500)
    (hov : (1 + (bin_step : ℝ) / 10000) ^ b < floatOverflowBound)
    (hun : floatUnderflowBound < (1 + (bin_step : ℝ) / 10000) ^ a / 10 ^ (9 - 6)) :
    (calculate_dlmm_price_actual a bin_step).toEReal <
      (calculate_dlmm_price_actual b bin_step).toEReal := by
  have hbase : (1 : ℝ) < 1 + (bin_step : ℝ) / 10000 := by
    have hq : (0 : ℝ) < (bin_step : ℝ) := by exact_mod_cast hstep
    linarith
  have hmono : (1 + (bin_step : ℝ) / 10000) ^ a < (1 + (bin_step : ℝ) / 10000) ^ b :=
    (zpow_lt_zpow_iff_right₀ hbase).mpr hab
  have hova : (1 + (bin_step : ℝ) / 10000) ^ a < floatOverflowBound := lt_trans hmono hov
  have hunb : floatUnderflowBound < (1 + (bin_step : ℝ) / 10000) ^ b / 10 ^ (9 - 6) :=
    lt_trans hun ((div_lt_div_iff_of_pos_right (by norm_num)).mpr hmono)
  have hfa : calculate_dlmm_price_actual a bin_step =
      .val ((1 + (bin_step : ℝ) / 10000) ^ a / 10 ^ (9 - 6)) := by
    simp only [calculate_dlmm_price_actual]
    rw [if_neg ha0, if_pos ⟨ha, hova⟩, if_neg (not_le.mpr hun)]
  have hfb : calculate_dlmm_price_actual b bin_step =
      .val ((1 + (bin_step : ℝ) / 10000) ^ b / 10 ^ (9 - 6)) := by
    simp only [calculate_dlmm_price_actual]
    rw [if_neg hb0, if_pos ⟨hb, hov⟩, if_neg (not_le.mpr hunb)]
  rw [hfa, hfb]
  show (((1 + (bin_step : ℝ) / 10000) ^ a / 10 ^ (9 - 6) : ℝ) : EReal) <
    (((1 + (bin_step : ℝ) / 10000) ^ b / 10 ^ (9 - 6) : ℝ) : EReal)
  rw [EReal.coe_lt_coe_iff]
  exact (div_lt_div_iff_of_pos_right (by norm_num)).mpr hmono

/-- Witness for C4: step 1, indices 1 and 2, both powers far inside the
float range bounds. -/
theorem claim_C4_witness :
    (0 < 1) ∧ ((1 : ℤ) < 2) ∧ ((1 : ℤ) ≠ 0) ∧ ((2 : ℤ) ≠ 0) ∧
    (|(1 : ℤ)| ≤ 500) ∧ (|(2 : ℤ)| ≤ 500) ∧
    ((1 + ((1 : ℕ) : ℝ) / 10000) ^ (2 : ℤ) < floatOverflowBound) ∧
    (floatUnderflowBound < (1 + ((1 : ℕ) : ℝ) / 10000) ^ (1 : ℤ) / 10 ^ (9 - 6)) ∧
    (calculate_dlmm_price_actual 1 1).toEReal <
      (calculate_dlmm_price_actual 2 1).toEReal := by
  have hov : (1 + ((1 : ℕ) : ℝ) / 10000) ^ (2 : ℤ) < floatOverflowBound := by
    rw [Nat.cast_one, show (2 : ℤ) = 1 + 1 from rfl, zpow_add₀ (by norm_num), zpow_one]
    norm_num [floatOverflowBound]
  have hun : floatUnderflowBound <
      (1 + ((1 : ℕ) : ℝ) / 10000) ^ (1 : ℤ) / 10 ^ (9 - 6) := by
    rw [Nat.cast_one, zpow_one]
    norm_num [floatUnderflowBound]
  exact ⟨by decide, by decide, by decide, by decide, by decide, by decide, hov, hun,
    claim_C4_monotone_direct 1 1 2 (by decide) (by decide) (by decide) (by decide)
      (by decide) (by decide) hov hun⟩

/-! ## Claim C5 -/

/-- Claim C5 (counterexample): at `active_id = 0` (step 100) both price
functions return exactly `1` — the early returns `1.0` and `"1.0"` — and
`1` is not `1` adjusted by the fixed decimal-places offset
`10 ** (9 - 6)`: the adjustment the other paths apply is absent from the
`active_id = 0` result. -/
theorem claim_C5_counterexample :
    calculate_dlmm_price_actual 0 100 = PriceF.val 1 ∧
    calculate_precise_price_decimal 0 100 = PreciseResult.val 1 ∧
    (1 : ℝ) ≠ 1 / 10 ^ (9 - 6) := by
  refine ⟨by simp [calculate_dlmm_price_actual],
    by simp [calculate_precise_price_decimal], by norm_num⟩

/-- Claim C5 (amended): for `active_id = 0` both the float function and
the arbitrary-precision function return exactly `1`, independent of
`step_size` — via their early returns `1.0` / `"1.0"`, reached before the
direct, logarithmic or decimal computation paths, and without the
decimal-places adjustment those paths apply. -/
theorem claim_C5_id_zero (bin_step : ℕ) :
    calculate_dlmm_price_actual 0 bin_step = PriceF.val 1 ∧
    calculate_precise_price_decimal 0 bin_step = PreciseResult.val 1 := by
  constructor
  · simp [calculate_dlmm_price_actual]
  · simp [calculate_precise_price_decimal]

/-! ## Claim C8 -/

/-- A little-endian reading is the big-endian reading of the reversed
bytes. -/
theorem leVal_eq_beVal_reverse (l : List Nat) : leVal l = beVal l.reverse := by
  induction l with
  | nil => rfl
  | cons x t ih =>
    have hx : leVal (x :: t) = x + 256 * leVal t := by simp [leVal]
    have hr : beVal (t.reverse ++ [x]) = beVal t.reverse * 256 + x := by
      simp [beVal, List.foldl_append]
    rw [hx, List.reverse_cons, hr, ih]
    ring

/-- Claim C8 (confirmed): `calculate_discriminator` — SHA-256 of
`"account:" + type_name`, first 8 digest bytes via
`int.from_bytes(_, "little")` — agrees with the spec's reference
definition `compute_tag_spec` (same hash and truncation, the 8 bytes read
as a little-endian unsigned integer, phrased independently) on every
type-name byte sequence; both are total Lean functions, so the operation
is deterministic and has no failure mode. -/
theorem claim_C8_tag (type_name : List Nat) :
    calculate_discriminator type_name = compute_tag_spec type_name := by
  unfold calculate_discriminator compute_tag_spec
  rw [leVal_eq_beVal_reverse]

/-! ## Concrete validation of the embedded primitives -/

set_option maxRecDepth 40000 in
/-- The embedded SHA-256 reproduces the FIPS 180-4 digest of `"abc"`. -/
theorem sha256_abc_vector : sha256 [97, 98, 99] =
    [0xba, 0x78, 0x16, 0xbf, 0x8f, 0x01, 0xcf, 0xea, 0x41, 0x41, 0x40, 0xde,
     0x5d, 0xae, 0x22, 0x23, 0xb0, 0x03, 0x61, 0xa3, 0x96, 0x17, 0x7a, 0x9c,
     0xb4, 0x10, 0xff, 0x61, 0xf2, 0x00, 0x15, 0xad] := by decide

set_option maxRecDepth 40000 in
/-- The embedded discriminator reproduces the value the source computes
and prints for `"BondingCurve"`. -/
theorem calculate_discriminator_bonding_curve :
    calculate_discriminator [66, 111, 110, 100, 105, 110, 103, 67, 117, 114, 118, 101] =
      6966180631402821399 := by decide

/-- The embedded base-58 encoder matches the reference encoding of a
value with one leading zero byte. -/
theorem b58encode_vector : b58encode [0, 1, 2, 250] = ['1', 'L', 'i', '5'] := by decide

/-- The UTF-8 validator agrees with Python's `bytes.decode()` on
boundary cases: a lone continuation byte, an overlong form, a surrogate,
and the largest code point. -/
theorem isValidUtf8_boundary_vectors :
    isValidUtf8 [0x80] = false ∧ isValidUtf8 [0xC2, 0x80] = true ∧
    isValidUtf8 [0xC1, 0x80] = false ∧ isValidUtf8 [0xED, 0xA0, 0x80] = false ∧
    isValidUtf8 [0xF4, 0x8F, 0xBF, 0xBF] = true ∧
    isValidUtf8 [0xF4, 0x90, 0x80, 0x80] = false := by decide
